import Mathlib

/-!
Verification of `dormant_users.py`, a single-pass GitHub-organization audit
tool.  The script walks four paginated GraphQL collections (org members, org
repositories, repository branches, per-branch commit/issue/PR history), merges
per-user "last seen" ISO-8601 timestamps with a keep-latest rule, computes the
set of members never observed active, and writes one CSV report per
organization.

The embedding below models:
  * Python string comparison (`<` on `str`) as code-point lexicographic
    comparison of character lists (`charsLt` / `strLt`);
  * Python dictionaries `dict[str, str]` as insertion-ordered association
    lists (`Dict`), with lookup, conditional update and merge translated from
    the source's `if login not in activity or activity[login] < date` rule;
  * each paginated traversal as a recursion over the list of server responses
    consumed by successive `run_query` calls, instrumented with the list of
    cursor values sent (first component: the accumulated result, second
    component: one cursor per request issued).  A response is
    `Except.error e` when `run_query` raises (bad HTTP status or a GraphQL
    `errors` payload), and that exception propagates out of the traversal;
  * `datetime.strptime(s[:19], "%Y-%m-%dT%H:%M:%S")` as a character-level
    parser (`strptime19`) validating field ranges the way the `datetime`
    constructor does, and aware-UTC `datetime` comparison as field-lexicographic
    comparison (`dtLE`);
  * `main` as `mainRun` over an `Env` bundling the configured organizations
    and the per-query server responses; `try/except` blocks become `match`es
    on `Except` values at exactly the loop levels the source catches at.
-/

/-! ## Python string comparison -/

/-- Code-point lexicographic comparison of character lists: the semantics of
Python's `<` on `str` (and of Lean's `String` order), written structurally. -/
def charsLt : List Char → List Char → Bool
  | [], [] => false
  | [], _ :: _ => true
  | _ :: _, [] => false
  | a :: as, b :: bs => if a < b then true else if b < a then false else charsLt as bs

/-- Python `a < b` on strings. -/
def strLt (a b : String) : Bool := charsLt a.data b.data

/-- Value kept by the source's update rule `if old < new then new else old`:
the lexicographically (chronologically, for ISO-8601) larger of the two. -/
def smax (a b : String) : String := if strLt a b then b else a

/-! ## Activity mappings (`dict[str, str]`, login → last-seen timestamp) -/

/-- Insertion-ordered association list modelling a Python `dict[str, str]`. -/
abbrev Dict := List (String × String)

/-- Python `d[k]` / `k in d`: value at the first (unique, for genuine dicts)
occurrence of key `k`. -/
def dlookup : Dict → String → Option String
  | [], _ => none
  | p :: d, k => if p.1 = k then some p.2 else dlookup d k

/-- Source lines 116-117 / 197-199: `if login not in activity or
activity[login] < date: activity[login] = date`.  Python dict assignment
overwrites the value in place (keeping the key's position) when the key
exists, and appends otherwise. -/
def updateIfNewer (d : Dict) (login date : String) : Dict :=
  match dlookup d login with
  | none => d ++ [(login, date)]
  | some old =>
      if strLt old date then d.map (fun p => if p.1 = login then (login, date) else p)
      else d

/-- Source lines 197-199: merge a branch-level activity mapping `upd` into the
accumulated mapping `into`, entry by entry in iteration order. -/
def mergeActivity (into upd : Dict) : Dict :=
  upd.foldl (fun acc p => updateIfNewer acc p.1 p.2) into

/-- Maximum of two optional timestamps: the value a login ends up with when
the two sides contribute the respective timestamps. -/
def omax : Option String → Option String → Option String
  | none, b => b
  | some a, none => some a
  | some a, some b => some (smax a b)

/-! ## Paginated traversals

A server is modelled by the list of responses returned to the successive
`run_query` calls of one traversal, in order.  Each traversal returns the
accumulated result (or the first uncaught exception) together with the list
of cursor values sent, one per request: the first request always carries
`none`, every later one the `endCursor` of the previous page. -/

/-- GraphQL `pageInfo { hasNextPage endCursor }`. -/
structure PageInfo where
  hasNextPage : Bool
  endCursor : Option String
deriving DecidableEq

/-- One page of a paginated collection: the extracted `nodes` plus its
`pageInfo`. -/
structure Page (α : Type) where
  nodes : List α
  pageInfo : PageInfo
deriving DecidableEq

/-- Cursor loop shared by `get_all_org_members_for_org` (lines 42-48),
`get_repositories_for_org` (lines 63-67) and `get_all_branches` (lines 82-87):
`while has_next:` fetch a page, extend the result with its nodes, then take
`(endCursor, hasNextPage)` from its `pageInfo`.  An errored `run_query`
response aborts the traversal with that exception. -/
def paginateE {α : Type} : List (Except String (Page α)) → Option String →
    Except String (List α) × List (Option String)
  | [], _ => (Except.ok [], [])
  | Except.error e :: _, c => (Except.error e, [c])
  | Except.ok p :: rest, c =>
      if p.pageInfo.hasNextPage then
        ((paginateE rest p.pageInfo.endCursor).1.map (fun ns => p.nodes ++ ns),
         c :: (paginateE rest p.pageInfo.endCursor).2)
      else (Except.ok p.nodes, [c])

/-- Source lines 29-49: collect the member logins of an organization,
starting with no cursor. -/
def get_all_org_members_for_org (server : List (Except String (Page String))) :
    Except String (List String) × List (Option String) :=
  paginateE server none

/-- Source lines 51-68: collect the repository names of an organization,
starting with no cursor. -/
def get_repositories_for_org (server : List (Except String (Page String))) :
    Except String (List String) × List (Option String) :=
  paginateE server none

/-- Source lines 70-88: collect the branch names of a repository, starting
with no cursor. -/
def get_all_branches (server : List (Except String (Page String))) :
    Except String (List String) × List (Option String) :=
  paginateE server none

/-- Node of the issue / pull-request scans: `author { login }` (null when the
author is unresolvable) and `updatedAt`. -/
structure ActNode where
  author : Option String
  updatedAt : String
deriving DecidableEq

/-- Node of the commit-history scan: `author { user { login }, date }`; the
GitHub `user` is null when the commit author has no account. -/
structure CommitAuthor where
  user : Option String
  date : String
deriving DecidableEq

/-- Commit target of a branch ref: carries the paginated `history`. -/
structure CommitTarget where
  history : Page CommitAuthor
deriving DecidableEq

/-- Branch ref: its `target` may be null. -/
structure CommitRef where
  target : Option CommitTarget
deriving DecidableEq

/-- Response of one commit-history query: the `ref` itself may be null
(missing branch). -/
structure CommitResp where
  ref : Option CommitRef
deriving DecidableEq

/-- Source lines 133-137 / 154-158: fold one issue or PR node into the
activity mapping, skipping nodes whose `author` is null. -/
def actUpdate (act : Dict) (n : ActNode) : Dict :=
  match n.author with
  | none => act
  | some login => updateIfNewer act login n.updatedAt

/-- Source lines 112-117: fold one commit node into the activity mapping,
skipping commits whose `author.user` is null. -/
def commitUpdate (act : Dict) (n : CommitAuthor) : Dict :=
  match n.user with
  | none => act
  | some login => updateIfNewer act login n.date

/-- Source lines 105-118: the commit-history cursor loop of
`collect_branch_activity`.  After each response it breaks (keeping the
activity accumulated so far) when `ref` or `ref.target` is null; otherwise it
folds the page's nodes into the mapping and follows `pageInfo`. -/
def commitsGoE : List (Except String CommitResp) → Option String → Dict →
    Except String Dict × List (Option String)
  | [], _, act => (Except.ok act, [])
  | Except.error e :: _, c, _ => (Except.error e, [c])
  | Except.ok r :: rest, c, act =>
      match r.ref with
      | none => (Except.ok act, [c])
      | some rf =>
          match rf.target with
          | none => (Except.ok act, [c])
          | some tgt =>
              if tgt.history.pageInfo.hasNextPage then
                ((commitsGoE rest tgt.history.pageInfo.endCursor
                    (tgt.history.nodes.foldl commitUpdate act)).1,
                 c :: (commitsGoE rest tgt.history.pageInfo.endCursor
                    (tgt.history.nodes.foldl commitUpdate act)).2)
              else (Except.ok (tgt.history.nodes.foldl commitUpdate act), [c])

/-- Cursor loop folding issue/PR pages into the activity mapping (source
lines 130-139 and 151-160 share this exact shape). -/
def actGoE : List (Except String (Page ActNode)) → Option String → Dict →
    Except String Dict × List (Option String)
  | [], _, act => (Except.ok act, [])
  | Except.error e :: _, c, _ => (Except.error e, [c])
  | Except.ok p :: rest, c, act =>
      if p.pageInfo.hasNextPage then
        ((actGoE rest p.pageInfo.endCursor (p.nodes.foldl actUpdate act)).1,
         c :: (actGoE rest p.pageInfo.endCursor (p.nodes.foldl actUpdate act)).2)
      else (Except.ok (p.nodes.foldl actUpdate act), [c])

/-- Source lines 130-139: the issue scan of `collect_branch_activity`. -/
def issuesScan (pages : List (Except String (Page ActNode))) (c : Option String)
    (act : Dict) : Except String Dict × List (Option String) :=
  actGoE pages c act

/-- Source lines 151-160: the pull-request scan of `collect_branch_activity`. -/
def prsScan (pages : List (Except String (Page ActNode))) (c : Option String)
    (act : Dict) : Except String Dict × List (Option String) :=
  actGoE pages c act

/-- Source lines 93-104: the commit-history GraphQL query text (the only
query whose variables include the `since` cutoff). -/
def q_commits : String :=
  "\n    query($owner: String!, $name: String!, $branch: String!, $since: GitTimestamp!, $cursor: String) \x7b\n      repository(owner: $owner, name: $name) \x7b\n        ref(qualifiedName: $branch) \x7b\n          target \x7b ... on Commit \x7b history(first: 100, after: $cursor, since: $since) \x7b\n            nodes \x7b author \x7b user \x7b login \x7d, date \x7d \x7d\n            pageInfo \x7b hasNextPage endCursor \x7d\n          \x7d\x7d\x7d\n        \x7d\n      \x7d\n    \x7d\n    "

/-- Source lines 120-129: the issue-scan GraphQL query text. -/
def q_issues : String :=
  "\n    query($owner: String!, $name: String!, $cursor: String) \x7b\n      repository(owner: $owner, name: $name) \x7b\n        issues(first: 100, after: $cursor, orderBy: \x7bfield: UPDATED_AT, direction: DESC\x7d) \x7b\n          nodes \x7b author \x7b login \x7d, updatedAt \x7d\n          pageInfo \x7b hasNextPage endCursor \x7d\n        \x7d\n      \x7d\n    \x7d\n    "

/-- Source lines 141-150: the pull-request-scan GraphQL query text. -/
def q_prs : String :=
  "\n    query($owner: String!, $name: String!, $cursor: String) \x7b\n      repository(owner: $owner, name: $name) \x7b\n        pullRequests(states: [OPEN, CLOSED, MERGED], orderBy: \x7bfield: UPDATED_AT, direction: DESC\x7d, first: 100, after: $cursor) \x7b\n          nodes \x7b author \x7b login \x7d, updatedAt \x7d\n          pageInfo \x7b hasNextPage endCursor \x7d\n        \x7d\n      \x7d\n    \x7d\n    "

/-- Substring test (on code points), used to state which query texts mention
which variables. -/
def containsAux (needle : List Char) : List Char → Bool
  | [] => needle.isEmpty
  | c :: rest => needle.isPrefixOf (c :: rest) || containsAux needle rest

/-- Substring test on strings. -/
def containsSub (needle hay : String) : Bool := containsAux needle.data hay.data

/-- Source lines 90-162: `collect_branch_activity`.  The commit server is a
function of the `since` variable sent with the commit query (the issue and PR
queries carry no such variable).  The three scans run in order on one shared
mapping; an exception from any scan propagates out of the function, discarding
the partial mapping. -/
def collect_branch_activity (cserver : String → List (Except String CommitResp))
    (issues prs : List (Except String (Page ActNode))) (since_iso : String) :
    Except String Dict :=
  match (commitsGoE (cserver since_iso) none []).1 with
  | Except.error e => Except.error e
  | Except.ok a₁ =>
      match (issuesScan issues none a₁).1 with
      | Except.error e => Except.error e
      | Except.ok a₂ => (prsScan prs none a₂).1

/-- Index of the first page whose `hasNextPage` is false: the page at which
the cursor loop stops. -/
def stopIdx {α : Type} (pages : List (Page α)) : Nat :=
  pages.findIdx (fun p => !p.pageInfo.hasNextPage)

/-! ## Timestamps, report rows -/

/-- Aware-UTC `datetime` value (both sides of every comparison in the source
carry `tzinfo=timezone.utc`, so comparison is field-lexicographic). -/
structure DateTime where
  year : Nat
  month : Nat
  day : Nat
  hour : Nat
  minute : Nat
  second : Nat
deriving DecidableEq

/-- Python `a <= b` on aware datetimes of the same timezone: lexicographic on
(year, month, day, hour, minute, second). -/
def dtLE (a b : DateTime) : Bool :=
  if a.year ≠ b.year then decide (a.year < b.year)
  else if a.month ≠ b.month then decide (a.month < b.month)
  else if a.day ≠ b.day then decide (a.day < b.day)
  else if a.hour ≠ b.hour then decide (a.hour < b.hour)
  else if a.minute ≠ b.minute then decide (a.minute < b.minute)
  else decide (a.second ≤ b.second)

/-- Gregorian leap-year test, as validated by the `datetime` constructor. -/
def isLeap (y : Nat) : Bool := (y % 4 == 0 && y % 100 != 0) || y % 400 == 0

/-- Number of days of month `m` in year `y`. -/
def daysInMonth (y m : Nat) : Nat :=
  if m = 2 then (if isLeap y then 29 else 28)
  else if m = 4 ∨ m = 6 ∨ m = 9 ∨ m = 11 then 30 else 31

/-- Numeric value of a decimal digit character. -/
def digitVal (c : Char) : Nat := c.toNat - 48

/-- Greedy 1-2 digit field (`strptime`'s `%m`, `%d`, `%H`, `%M`, `%S` match
`\x5cd\x7b1,2\x7d`). -/
def take2Digits : List Char → Option (Nat × List Char)
  | [] => none
  | c :: rest =>
      if c.isDigit then
        match rest with
        | c₂ :: rest₂ =>
            if c₂.isDigit then some (digitVal c * 10 + digitVal c₂, rest₂)
            else some (digitVal c, rest)
        | [] => some (digitVal c, [])
      else none

/-- Fixed 4-digit field (`strptime`'s `%Y`). -/
def take4Digits : List Char → Option (Nat × List Char)
  | c₁ :: c₂ :: c₃ :: c₄ :: rest =>
      if c₁.isDigit && c₂.isDigit && c₃.isDigit && c₄.isDigit then
        some (((digitVal c₁ * 10 + digitVal c₂) * 10 + digitVal c₃) * 10 + digitVal c₄, rest)
      else none
  | _ => none

/-- Literal character of the format string. -/
def expectChar (c : Char) : List Char → Option (List Char)
  | x :: rest => if x = c then some rest else none
  | [] => none

/-- Full-match parse of the format `%Y-%m-%dT%H:%M:%S`, with the field-range
validation the `datetime` constructor performs; `none` models the
`ValueError` `datetime.strptime` raises. -/
def parse19Chars (cs : List Char) : Option DateTime := do
  let (y, cs) ← take4Digits cs
  let cs ← expectChar '-' cs
  let (mo, cs) ← take2Digits cs
  let cs ← expectChar '-' cs
  let (d, cs) ← take2Digits cs
  let cs ← expectChar 'T' cs
  let (h, cs) ← take2Digits cs
  let cs ← expectChar ':' cs
  let (mi, cs) ← take2Digits cs
  let cs ← expectChar ':' cs
  let (s, cs) ← take2Digits cs
  if cs.isEmpty = true ∧ 1 ≤ y ∧ 1 ≤ mo ∧ mo ≤ 12 ∧ 1 ≤ d ∧ d ≤ daysInMonth y mo
      ∧ h ≤ 23 ∧ mi ≤ 59 ∧ s ≤ 59 then
    some ⟨y, mo, d, h, mi, s⟩
  else none

/-- Source line 221: `datetime.strptime(last_iso[:19], "%Y-%m-%dT%H:%M:%S")`
— only the first 19 characters of the stored timestamp are parsed, and the
result is reinterpreted as UTC (`.replace(tzinfo=timezone.utc)`). -/
def strptime19 (s : String) : Option DateTime := parse19Chars (s.data.take 19)

/-- Zero-padded 2-digit field of `strftime`. -/
def pad2 (n : Nat) : String := if n < 10 then "0" ++ toString n else toString n

/-- Zero-padded 4-digit year of `strftime`'s `%Y`. -/
def pad4 (n : Nat) : String :=
  if n < 10 then "000" ++ toString n
  else if n < 100 then "00" ++ toString n
  else if n < 1000 then "0" ++ toString n
  else toString n

/-- Source line 222: `dt.strftime("%d-%m-%Y")`, the day-month-year date
column. -/
def fmtDMY (d : DateTime) : String := pad2 d.day ++ "-" ++ pad2 d.month ++ "-" ++ pad4 d.year

/-- Source line 222: `str(b).lower()` for a Python bool `b`. -/
def pyBool (b : Bool) : String := if b then "true" else "false"

/-- Source line 219: the CSV header row. -/
def headerRow : List String := ["Users", "Last activity", "active"]

/-- Source lines 220-222: the CSV row of one activity entry — login,
day-month-year date, and the lowercase string of `dt >= since_date`; `none`
when the stored timestamp fails to parse (uncaught `ValueError`). -/
def activityRow (since : DateTime) (p : String × String) : Option (List String) :=
  (strptime19 p.2).map (fun dt => [p.1, fmtDMY dt, pyBool (dtLE since dt)])

/-- Source lines 220-222: the activity rows in dictionary (insertion) order,
stopping with the exception of the first entry that fails to parse. -/
def rowsFor (since : DateTime) : Dict → Option (List (List String))
  | [] => some []
  | p :: rest =>
      match activityRow since p with
      | none => none
      | some r => (rowsFor since rest).map (fun rs => r :: rs)

/-- Source lines 210-212: `never_active_users = set(all_members) -
set(overall_activity.keys())`, as the members never observed active (each
once, in first-of-last-occurrence order; only membership is relevant, the
report sorts this set). -/
def never_active_users (members : List String) (overall : Dict) : List String :=
  (members.filter (fun u => decide (¬ u ∈ overall.map Prod.fst))).dedup

/-- Source line 223: `sorted(never_active_users)` under Python's string
order. -/
def never_active_sorted (members : List String) (overall : Dict) : List String :=
  (never_active_users members overall).insertionSort (fun a b => strLt b a = false)

/-- Source lines 217-224: the rows of one organization's CSV report — header,
one row per overall-activity entry, then one `N/A` / `never-active` row per
sorted never-active login. -/
def writeReport (overall : Dict) (never : List String) (since : DateTime) :
    Option (List (List String)) :=
  (rowsFor since overall).map
    (fun ars => headerRow :: (ars ++ never.map (fun u => [u, "N/A", "never-active"])))

/-! ## The orchestrator (`main`) -/

/-- Configuration and server behaviour of one run: the configured
organizations and, for each query type, the responses the endpoint returns to
the successive calls of one traversal (commit servers additionally depend on
the `since` variable sent).  `since` is the computed cutoff
`now - timedelta(days=DAYS_INACTIVE_THRESHOLD)` and `since_iso` its
`isoformat()`. -/
structure Env where
  orgs : List String
  reposServer : String → List (Except String (Page String))
  branchesServer : String → String → List (Except String (Page String))
  commitsServer : String → String → String → String → List (Except String CommitResp)
  issuesServer : String → String → List (Except String (Page ActNode))
  prsServer : String → String → List (Except String (Page ActNode))
  membersServer : String → List (Except String (Page String))
  since_iso : String
  since : DateTime

/-- Source lines 193-201: process one branch — a `collect_branch_activity`
exception is caught at branch level and the branch skipped, otherwise the
branch mapping is merged into the accumulator. -/
def stepBranch (env : Env) (org repo : String) (acc : Dict) (br : String) : Dict :=
  match collect_branch_activity (env.commitsServer org repo br)
      (env.issuesServer org repo) (env.prsServer org repo) env.since_iso with
  | Except.error _ => acc
  | Except.ok act => mergeActivity acc act

/-- Source lines 185-203: process one repository — a branch-list exception is
caught at repo level and the repository skipped; an empty branch list is
skipped too. -/
def stepRepo (env : Env) (org : String) (acc : Dict) (repo : String) : Dict :=
  match (get_all_branches (env.branchesServer org repo)).1 with
  | Except.error _ => acc
  | Except.ok branches =>
      if branches.isEmpty then acc else branches.foldl (stepBranch env org repo) acc

/-- Overall activity mapping accumulated for one organization (empty when the
repository list itself could not be fetched). -/
def orgOverall (env : Env) (org : String) : Dict :=
  match (get_repositories_for_org (env.reposServer org)).1 with
  | Except.error _ => []
  | Except.ok repos => repos.foldl (stepRepo env org) []

/-- Source lines 169-226: process one organization.  A repository-list
exception is caught at org level and the whole organization skipped (`.ok
none`).  The member fetch (line 210) and the CSV write (lines 217-224) are
not inside any `try`, so an exception there propagates (`.error`).  On
success the organization's report rows are produced. -/
def processOrg (env : Env) (org : String) :
    Except String (Option (String × List (List String))) :=
  match (get_repositories_for_org (env.reposServer org)).1 with
  | Except.error _ => Except.ok none
  | Except.ok repos =>
      match (get_all_org_members_for_org (env.membersServer org)).1 with
      | Except.error e => Except.error e
      | Except.ok members =>
          match writeReport (repos.foldl (stepRepo env org) [])
              (never_active_sorted members (repos.foldl (stepRepo env org) []))
              env.since with
          | none => Except.error "ValueError: time data does not match format"
          | some rows => Except.ok (some (org, rows))

/-- Source lines 169-226: the `for ORG_NAME in ORG_NAMES` loop.  An exception
escaping `processOrg` aborts the remaining organizations. -/
def runOrgs (env : Env) : List String → Except String (List (String × List (List String)))
  | [] => Except.ok []
  | org :: rest =>
      match processOrg env org with
      | Except.error e => Except.error e
      | Except.ok r => (runOrgs env rest).map (fun rs => r.toList ++ rs)

/-- Source lines 164-226: `main()`.  With no configured organizations it
returns early with no reports; otherwise it processes the organizations in
order, returning the written reports (org name paired with CSV rows). -/
def mainRun (env : Env) : Except String (List (String × List (List String))) :=
  if env.orgs.isEmpty then Except.ok [] else runOrgs env env.orgs

/-! ## Concrete data for witnesses and counterexamples -/

/-- Page list with two pages: the first links to the second, the second stops. -/
def wpagesS : List (Page String) :=
  [⟨["a1", "a2"], ⟨true, some "c1"⟩⟩, ⟨["a3"], ⟨false, some "c2"⟩⟩]

/-- Two issue/PR pages, the second node authorless. -/
def wpagesA : List (Page ActNode) :=
  [⟨[⟨some "u1", "2024-01-05T00:00:00Z"⟩], ⟨true, some "i1"⟩⟩,
   ⟨[⟨none, "2024-01-06T00:00:00Z"⟩], ⟨false, some "i2"⟩⟩]

/-- Two commit pages. -/
def wpagesC : List (Page CommitAuthor) :=
  [⟨[⟨some "u2", "2024-01-07T00:00:00Z"⟩], ⟨true, some "k1"⟩⟩, ⟨[], ⟨false, none⟩⟩]

/-- Environment whose every traversal succeeds immediately with empty data:
the base the concrete scenarios below are variations of. -/
def envBase : Env where
  orgs := ["acme"]
  reposServer := fun _ => [Except.ok ⟨[], ⟨false, none⟩⟩]
  branchesServer := fun _ _ => [Except.ok ⟨[], ⟨false, none⟩⟩]
  commitsServer := fun _ _ _ _ => [Except.ok ⟨some ⟨some ⟨⟨[], ⟨false, none⟩⟩⟩⟩⟩]
  issuesServer := fun _ _ => [Except.ok ⟨[], ⟨false, none⟩⟩]
  prsServer := fun _ _ => [Except.ok ⟨[], ⟨false, none⟩⟩]
  membersServer := fun _ => [Except.ok ⟨[], ⟨false, none⟩⟩]
  since_iso := "2024-01-01T00:00:00+00:00"
  since := ⟨2024, 1, 1, 0, 0, 0⟩

/-- Environment whose member-list query fails with a transport error while
everything else succeeds. -/
def envMembersFail : Env :=
  { envBase with membersServer := fun _ => [Except.error "boom"] }

/-- Environment with one repository whose branch-list query fails; the member
fetch succeeds. -/
def envBranchesFail : Env :=
  { envBase with
      reposServer := fun _ => [Except.ok ⟨["r1"], ⟨false, none⟩⟩],
      branchesServer := fun _ _ => [Except.error "branch fail"] }

/-- Environment whose repository-list query fails. -/
def envReposFail : Env :=
  { envBase with reposServer := fun _ => [Except.error "repos fail"] }

/-- Environment whose commit-history query fails (so
`collect_branch_activity` raises). -/
def envCommitsFail : Env :=
  { envBase with
      reposServer := fun _ => [Except.ok ⟨["r1"], ⟨false, none⟩⟩],
      branchesServer := fun _ _ => [Except.ok ⟨["main"], ⟨false, none⟩⟩],
      commitsServer := fun _ _ _ _ => [Except.error "commits fail"] }

/-- Environment with three repositories: branch listing fails on `bad`, `r2`
contributes one commit by `alice`, members are `alice` and `bob`. -/
def envRepoBad : Env :=
  { envBase with
      reposServer := fun _ => [Except.ok ⟨["r1", "bad", "r2"], ⟨false, none⟩⟩],
      branchesServer := fun _ repo =>
        if repo = "bad" then [Except.error "x"]
        else if repo = "r2" then [Except.ok ⟨["main"], ⟨false, none⟩⟩]
        else [Except.ok ⟨[], ⟨false, none⟩⟩],
      commitsServer := fun _ repo br _ =>
        if repo = "r2" ∧ br = "main" then
          [Except.ok ⟨some ⟨some ⟨⟨[⟨some "alice", "2024-01-10T00:00:00Z"⟩], ⟨false, none⟩⟩⟩⟩⟩]
        else [Except.ok ⟨some ⟨some ⟨⟨[], ⟨false, none⟩⟩⟩⟩⟩],
      membersServer := fun _ => [Except.ok ⟨["alice", "bob"], ⟨false, none⟩⟩] }

/-- Environment with an empty organization list. -/
def envNoOrgs : Env := { envBase with orgs := [] }

/-! ## Order lemmas for `strLt` -/

theorem charsLt_irrefl (l : List Char) : charsLt l l = false := by
  induction l with
  | nil => rfl
  | cons a as ih => simp [charsLt, ih]

theorem charsLt_asymm : ∀ {a b : List Char}, charsLt a b = true → charsLt b a = false
  | [], [], h => by simp [charsLt] at h
  | [], _ :: _, _ => rfl
  | _ :: _, [], h => by simp [charsLt] at h
  | x :: xs, y :: ys, h => by
      simp only [charsLt] at h ⊢
      by_cases hxy : x < y
      · simp [hxy, asymm hxy, ne_of_gt hxy]
      · by_cases hyx : y < x
        · simp [hxy, hyx] at h
        · simp only [hxy, if_false, hyx] at h ⊢
          simp [charsLt_asymm h]

theorem charsLt_conn : ∀ {a b : List Char},
    charsLt a b = false → charsLt b a = false → a = b
  | [], [], _, _ => rfl
  | [], _ :: _, h, _ => by simp [charsLt] at h
  | _ :: _, [], _, h => by simp [charsLt] at h
  | x :: xs, y :: ys, h, h' => by
      simp only [charsLt] at h h'
      by_cases hxy : x < y
      · simp [hxy] at h
      · by_cases hyx : y < x
        · simp [hyx, asymm hyx] at h'
        · have hx : x = y := le_antisymm (not_lt.mp hyx) (not_lt.mp hxy)
          simp only [hxy, if_false, hyx] at h h'
          exact hx ▸ congrArg (x :: ·) (charsLt_conn h h')

theorem charsLt_trans : ∀ {a b c : List Char},
    charsLt a b = true → charsLt b c = true → charsLt a c = true
  | [], _ :: _, _ :: _, _, _ => rfl
  | [], b, [], _, h' => by cases b <;> simp [charsLt] at h'
  | _ :: _, [], _, h, _ => by simp [charsLt] at h
  | [], [], _, h, _ => by simp [charsLt] at h
  | x :: xs, y :: ys, z :: zs, h, h' => by
      simp only [charsLt] at h h' ⊢
      by_cases hxy : x < y
      · by_cases hyz : y < z
        · simp [lt_trans hxy hyz]
        · by_cases hzy : z < y
          · simp [hyz, hzy] at h'
          · have : y = z := le_antisymm (not_lt.mp hzy) (not_lt.mp hyz)
            simp [this ▸ hxy]
      · by_cases hyx : y < x
        · simp [hxy, hyx] at h
        · have hx : x = y := le_antisymm (not_lt.mp hyx) (not_lt.mp hxy)
          simp only [hxy, if_false, hyx] at h
          subst hx
          by_cases hxz : x < z
          · simp [hxz]
          · by_cases hzx : z < x
            · simp [hxz, hzx] at h'
            · simp only [hxz, if_false, hzx] at h' ⊢
              simp [charsLt_trans h h']

theorem strLt_irrefl (a : String) : strLt a a = false := charsLt_irrefl a.data

theorem strLt_asymm {a b : String} (h : strLt a b = true) : strLt b a = false :=
  charsLt_asymm h

theorem strLt_conn {a b : String} (h : strLt a b = false) (h' : strLt b a = false) :
    a = b := by
  cases a; cases b
  exact congrArg String.mk (charsLt_conn h h')

theorem strLt_trans {a b c : String} (h : strLt a b = true) (h' : strLt b c = true) :
    strLt a c = true := charsLt_trans h h'

theorem smax_comm (a b : String) : smax a b = smax b a := by
  unfold smax
  cases hab : strLt a b <;> cases hba : strLt b a <;> simp_all
  · exact strLt_conn hab hba
  · exact absurd (strLt_asymm hab) (by simp [hba])

theorem smax_not_lt (a b : String) : strLt (smax a b) b = false := by
  unfold smax
  cases hab : strLt a b
  · simpa using hab
  · simp [strLt_irrefl]

theorem omax_none_right (a : Option String) : omax a none = a := by
  cases a <;> rfl

theorem omax_comm (a b : Option String) : omax a b = omax b a := by
  cases a <;> cases b <;> simp [omax, smax_comm]

instance : IsTotal String (fun a b => strLt b a = false) := by
  constructor
  intro a b
  cases h : strLt b a
  · exact Or.inl rfl
  · exact Or.inr (strLt_asymm h)

instance : IsTrans String (fun a b => strLt b a = false) := by
  constructor
  intro a b c hba hcb
  cases hca : strLt c a
  · rfl
  · cases hbc : strLt b c
    · exact absurd (strLt_conn hcb hbc ▸ hca) (by simp [hba])
    · exact absurd (strLt_trans hbc hca) (by simp [hba])

/-! ## Lookup and merge lemmas -/

theorem dlookup_append_absent (d : Dict) (k v : String) (h : dlookup d k = none) :
    dlookup (d ++ [(k, v)]) k = some v := by
  induction d with
  | nil => simp [dlookup]
  | cons p d ih =>
      simp only [dlookup] at h ⊢
      by_cases hp : p.1 = k
      · simp [hp] at h
      · simpa [hp] using ih (by simpa [hp] using h)

theorem dlookup_append_ne (d : Dict) (k v k' : String) (h : k' ≠ k) :
    dlookup (d ++ [(k, v)]) k' = dlookup d k' := by
  induction d with
  | nil => simp [dlookup, Ne.symm h]
  | cons p d ih =>
      simp only [dlookup, List.cons_append]
      by_cases hp : p.1 = k' <;> simp [dlookup, hp, ih]

theorem dlookup_setAll_self (d : Dict) (k v : String) (old : String)
    (h : dlookup d k = some old) :
    dlookup (d.map (fun p => if p.1 = k then (k, v) else p)) k = some v := by
  induction d with
  | nil => simp [dlookup] at h
  | cons p d ih =>
      simp only [dlookup, List.map_cons] at h ⊢
      by_cases hp : p.1 = k
      · simp [hp, dlookup]
      · simp only [hp, if_false] at h ⊢
        simpa [dlookup, hp] using ih h

theorem dlookup_setAll_ne (d : Dict) (k v k' : String) (h : k' ≠ k) :
    dlookup (d.map (fun p => if p.1 = k then (k, v) else p)) k' = dlookup d k' := by
  induction d with
  | nil => rfl
  | cons p d ih =>
      simp only [dlookup, List.map_cons]
      by_cases hp : p.1 = k
      · simp [dlookup, hp, Ne.symm h, ih]
      · by_cases hp' : p.1 = k' <;> simp [dlookup, hp, hp', h, ih]

theorem dlookup_update_self (d : Dict) (k v : String) :
    dlookup (updateIfNewer d k v) k = omax (dlookup d k) (some v) := by
  unfold updateIfNewer
  cases h : dlookup d k with
  | none => simpa [omax] using dlookup_append_absent d k v h
  | some old =>
      cases hlt : strLt old v
      · simpa [hlt, omax, smax] using h
      · simpa [hlt, omax, smax] using dlookup_setAll_self d k v old h

theorem dlookup_update_ne (d : Dict) (k v k' : String) (h : k' ≠ k) :
    dlookup (updateIfNewer d k v) k' = dlookup d k' := by
  unfold updateIfNewer
  cases hl : dlookup d k with
  | none => exact dlookup_append_ne d k v k' h
  | some old =>
      cases hlt : strLt old v
      · simp [hlt]
      · simp only [hlt, if_true]
        exact dlookup_setAll_ne d k v k' h

theorem dlookup_eq_none_iff (d : Dict) (k : String) :
    dlookup d k = none ↔ k ∉ d.map Prod.fst := by
  induction d with
  | nil => simp [dlookup]
  | cons p d ih =>
      by_cases hp : p.1 = k
      · simp [dlookup, hp]
      · simp [dlookup, hp, ih, Ne.symm hp]

theorem dlookup_of_mem_nodup (d : Dict) (k v : String)
    (hmem : (k, v) ∈ d) (hnd : (d.map Prod.fst).Nodup) : dlookup d k = some v := by
  induction d with
  | nil => simp at hmem
  | cons p d ih =>
      simp only [List.map_cons, List.nodup_cons] at hnd
      rcases List.mem_cons.mp hmem with h | h
      · simp [dlookup, ← h]
      · have hk : k ∈ d.map Prod.fst := List.mem_map.mpr ⟨(k, v), h, rfl⟩
        have hp : p.1 ≠ k := fun hpk => hnd.1 (hpk ▸ hk)
        simp [dlookup, hp, ih h hnd.2]

theorem mergeActivity_nil (A : Dict) : mergeActivity A [] = A := rfl

theorem mergeActivity_cons (A : Dict) (p : String × String) (B : Dict) :
    mergeActivity A (p :: B) = mergeActivity (updateIfNewer A p.1 p.2) B := rfl

theorem dlookup_merge (B : Dict) (hB : (B.map Prod.fst).Nodup) :
    ∀ (A : Dict) (k : String),
      dlookup (mergeActivity A B) k = omax (dlookup A k) (dlookup B k) := by
  induction B with
  | nil => intro A k; simp [mergeActivity_nil, dlookup, omax_none_right]
  | cons p B ih =>
      intro A k
      simp only [List.map_cons, List.nodup_cons] at hB
      rw [mergeActivity_cons, ih hB.2]
      by_cases hk : k = p.1
      · subst hk
        have hBk : dlookup B p.1 = none :=
          (dlookup_eq_none_iff B p.1).mpr hB.1
        rw [hBk, omax_none_right, dlookup_update_self]
        simp [dlookup]
      · rw [dlookup_update_ne A p.1 p.2 k hk]
        simp [dlookup, Ne.symm hk]

theorem updateIfNewer_keep (d : Dict) (k v m : String)
    (h1 : dlookup d k = some m) (h2 : strLt m v = false) :
    updateIfNewer d k v = d := by
  unfold updateIfNewer
  rw [h1]
  simp [h2]

theorem mergeActivity_keep (B : Dict) :
    ∀ D : Dict, (∀ p ∈ B, ∃ m, dlookup D p.1 = some m ∧ strLt m p.2 = false) →
      mergeActivity D B = D := by
  induction B with
  | nil => intro D _; rfl
  | cons p B ih =>
      intro D h
      obtain ⟨m, h1, h2⟩ := h p (List.mem_cons_self p B)
      rw [mergeActivity_cons, updateIfNewer_keep D p.1 p.2 m h1 h2]
      exact ih D (fun q hq => h q (List.mem_cons_of_mem p hq))

/-! ## Pagination lemmas -/

theorem paginateE_spec {α : Type} (pages : List (Page α)) :
    stopIdx pages < pages.length → ∀ c,
      paginateE (pages.map Except.ok) c =
        (Except.ok ((pages.take (stopIdx pages + 1)).map Page.nodes).flatten,
         c :: (pages.take (stopIdx pages)).map (fun p => p.pageInfo.endCursor)) := by
  induction pages with
  | nil => intro h; simp [stopIdx] at h
  | cons p rest ih =>
      intro h c
      by_cases hp : p.pageInfo.hasNextPage
      · have hs : stopIdx (p :: rest) = stopIdx rest + 1 := by
          simp [stopIdx, List.findIdx_cons, hp]
        have hr : stopIdx rest < rest.length := by
          rw [hs] at h
          simpa using h
        rw [hs]
        simp only [List.map_cons, paginateE, hp, if_true]
        rw [ih hr p.pageInfo.endCursor]
        simp [Except.map]
      · have hs : stopIdx (p :: rest) = 0 := by
          simp [stopIdx, List.findIdx_cons, hp]
        rw [hs]
        simp [paginateE, hp]

theorem actGoE_spec (pages : List (Page ActNode)) :
    stopIdx pages < pages.length → ∀ c act,
      actGoE (pages.map Except.ok) c act =
        (Except.ok (((pages.take (stopIdx pages + 1)).map Page.nodes).flatten.foldl actUpdate act),
         c :: (pages.take (stopIdx pages)).map (fun p => p.pageInfo.endCursor)) := by
  induction pages with
  | nil => intro h; simp [stopIdx] at h
  | cons p rest ih =>
      intro h c act
      by_cases hp : p.pageInfo.hasNextPage
      · have hs : stopIdx (p :: rest) = stopIdx rest + 1 := by
          simp [stopIdx, List.findIdx_cons, hp]
        have hr : stopIdx rest < rest.length := by
          rw [hs] at h
          simpa using h
        rw [hs]
        simp only [List.map_cons, actGoE, hp, if_true]
        rw [ih hr p.pageInfo.endCursor (p.nodes.foldl actUpdate act)]
        simp [List.foldl_append]
      · have hs : stopIdx (p :: rest) = 0 := by
          simp [stopIdx, List.findIdx_cons, hp]
        rw [hs]
        simp [actGoE, hp]

theorem commitsGoE_spec (pages : List (Page CommitAuthor)) :
    stopIdx pages < pages.length → ∀ c act,
      commitsGoE (pages.map (fun pg => Except.ok ⟨some ⟨some ⟨pg⟩⟩⟩)) c act =
        (Except.ok (((pages.take (stopIdx pages + 1)).map Page.nodes).flatten.foldl commitUpdate act),
         c :: (pages.take (stopIdx pages)).map (fun p => p.pageInfo.endCursor)) := by
  induction pages with
  | nil => intro h; simp [stopIdx] at h
  | cons p rest ih =>
      intro h c act
      by_cases hp : p.pageInfo.hasNextPage
      · have hs : stopIdx (p :: rest) = stopIdx rest + 1 := by
          simp [stopIdx, List.findIdx_cons, hp]
        have hr : stopIdx rest < rest.length := by
          rw [hs] at h
          simpa using h
        rw [hs]
        simp only [List.map_cons, commitsGoE, hp, if_true]
        rw [ih hr p.pageInfo.endCursor (p.nodes.foldl commitUpdate act)]
        simp [List.foldl_append]
      · have hs : stopIdx (p :: rest) = 0 := by
          simp [stopIdx, List.findIdx_cons, hp]
        rw [hs]
        simp [commitsGoE, hp]

/-! ## Report lemmas -/

theorem rowsFor_of_forall (since : DateTime) (d : Dict)
    (h : ∀ p ∈ d, (strptime19 p.2).isSome = true) :
    ∃ ars, rowsFor since d = some ars ∧
      List.Forall₂ (fun (p : String × String) row => ∃ dt, strptime19 p.2 = some dt ∧
        row = [p.1, fmtDMY dt, pyBool (dtLE since dt)]) d ars := by
  induction d with
  | nil => exact ⟨[], rfl, List.Forall₂.nil⟩
  | cons p d ih =>
      obtain ⟨dt, hdt⟩ := Option.isSome_iff_exists.mp (h p (List.mem_cons_self p d))
      obtain ⟨ars, h1, h2⟩ := ih (fun q hq => h q (List.mem_cons_of_mem p hq))
      refine ⟨[p.1, fmtDMY dt, pyBool (dtLE since dt)] :: ars, ?_, ?_⟩
      · simp [rowsFor, activityRow, hdt, h1]
      · exact List.Forall₂.cons ⟨dt, hdt, rfl⟩ h2

theorem writeReport_of_forall (overall : Dict) (never : List String) (since : DateTime)
    (h : ∀ p ∈ overall, (strptime19 p.2).isSome = true) :
    ∃ rows, writeReport overall never since = some rows := by
  obtain ⟨ars, h1, _⟩ := rowsFor_of_forall since overall h
  refine ⟨headerRow :: (ars ++ never.map (fun u => [u, "N/A", "never-active"])), ?_⟩
  simp [writeReport, h1]

/-! ## Orchestrator lemmas -/

theorem processOrg_ok (env : Env) (org : String)
    (hm : ∃ ms, (get_all_org_members_for_org (env.membersServer org)).1 = Except.ok ms)
    (hp : ∀ p ∈ orgOverall env org, (strptime19 p.2).isSome = true) :
    ∃ r, processOrg env org = Except.ok r := by
  cases hrep : (get_repositories_for_org (env.reposServer org)).1 with
  | error e => exact ⟨none, by simp [processOrg, hrep]⟩
  | ok repos =>
      obtain ⟨ms, hms⟩ := hm
      have hov : orgOverall env org = repos.foldl (stepRepo env org) [] := by
        simp [orgOverall, hrep]
      obtain ⟨rows, hrows⟩ :=
        writeReport_of_forall (repos.foldl (stepRepo env org) [])
          (never_active_sorted ms (repos.foldl (stepRepo env org) []))
          env.since (hov ▸ hp)
      exact ⟨some (org, rows), by simp [processOrg, hrep, hms, hrows]⟩

theorem runOrgs_ok (env : Env) (orgs : List String)
    (h : ∀ org ∈ orgs, ∃ r, processOrg env org = Except.ok r) :
    ∃ reports, runOrgs env orgs = Except.ok reports := by
  induction orgs with
  | nil => exact ⟨[], rfl⟩
  | cons org rest ih =>
      obtain ⟨r, hr⟩ := h org (List.mem_cons_self org rest)
      obtain ⟨rs, hrs⟩ := ih (fun o ho => h o (List.mem_cons_of_mem org ho))
      exact ⟨r.toList ++ rs, by simp [runOrgs, hr, hrs, Except.map]⟩

theorem rowsFor_forall₂ (since : DateTime) :
    ∀ (d : Dict) (ars : List (List String)), rowsFor since d = some ars →
      List.Forall₂ (fun (p : String × String) row => ∃ dt, strptime19 p.2 = some dt ∧
        row = [p.1, fmtDMY dt, pyBool (dtLE since dt)]) d ars := by
  intro d
  induction d with
  | nil =>
      intro ars h
      simp only [rowsFor, Option.some_inj] at h
      rw [← h]
      exact List.Forall₂.nil
  | cons p d ih =>
      intro ars h
      simp only [rowsFor] at h
      cases ha : activityRow since p with
      | none => rw [ha] at h; simp at h
      | some r =>
          rw [ha] at h
          obtain ⟨rs, h1, h2⟩ := Option.map_eq_some'.mp h
          obtain ⟨dt, hdt, hr⟩ := Option.map_eq_some'.mp ha
          rw [← h2]
          exact List.Forall₂.cons ⟨dt, hdt, hr.symm⟩ (ih rs h1)

/-! ## The claims -/

/-- C1: the activity-merge operation (update a login's timestamp only if the
login is absent or the new timestamp is chronologically greater) is
idempotent — `merge(merge(A,B),B) == merge(A,B)` — and commutative with
respect to the final timestamp per key, and for every login the merged
result equals the lexicographically (chronologically) maximum timestamp
contributed by either mapping. -/
theorem claim_C1_merge_algebra (A B : Dict)
    (hA : (A.map Prod.fst).Nodup) (hB : (B.map Prod.fst).Nodup) :
    mergeActivity (mergeActivity A B) B = mergeActivity A B
    ∧ (∀ k, dlookup (mergeActivity A B) k = omax (dlookup A k) (dlookup B k))
    ∧ (∀ k, dlookup (mergeActivity A B) k = dlookup (mergeActivity B A) k) := by
  refine ⟨?_, fun k => dlookup_merge B hB A k, fun k => ?_⟩
  · apply mergeActivity_keep
    intro p hp
    have hBp : dlookup B p.1 = some p.2 := dlookup_of_mem_nodup B p.1 p.2 hp hB
    rw [dlookup_merge B hB A p.1, hBp]
    cases hA' : dlookup A p.1 with
    | none => exact ⟨p.2, rfl, strLt_irrefl p.2⟩
    | some a => exact ⟨smax a p.2, rfl, smax_not_lt a p.2⟩
  · rw [dlookup_merge B hB A k, dlookup_merge A hA B k, omax_comm]

/-- Witness for C1 at two concrete two-entry mappings sharing the login
`bob`. -/
theorem claim_C1_merge_algebra_witness :
    mergeActivity (mergeActivity
        [("alice", "2024-01-01T00:00:00Z"), ("bob", "2024-03-01T00:00:00Z")]
        [("bob", "2024-02-05T00:00:00Z"), ("carol", "2024-04-01T00:00:00Z")])
        [("bob", "2024-02-05T00:00:00Z"), ("carol", "2024-04-01T00:00:00Z")] =
      mergeActivity
        [("alice", "2024-01-01T00:00:00Z"), ("bob", "2024-03-01T00:00:00Z")]
        [("bob", "2024-02-05T00:00:00Z"), ("carol", "2024-04-01T00:00:00Z")]
    ∧ (∀ k, dlookup (mergeActivity
        [("alice", "2024-01-01T00:00:00Z"), ("bob", "2024-03-01T00:00:00Z")]
        [("bob", "2024-02-05T00:00:00Z"), ("carol", "2024-04-01T00:00:00Z")]) k =
        omax (dlookup [("alice", "2024-01-01T00:00:00Z"), ("bob", "2024-03-01T00:00:00Z")] k)
          (dlookup [("bob", "2024-02-05T00:00:00Z"), ("carol", "2024-04-01T00:00:00Z")] k))
    ∧ (∀ k, dlookup (mergeActivity
        [("alice", "2024-01-01T00:00:00Z"), ("bob", "2024-03-01T00:00:00Z")]
        [("bob", "2024-02-05T00:00:00Z"), ("carol", "2024-04-01T00:00:00Z")]) k =
        dlookup (mergeActivity
          [("bob", "2024-02-05T00:00:00Z"), ("carol", "2024-04-01T00:00:00Z")]
          [("alice", "2024-01-01T00:00:00Z"), ("bob", "2024-03-01T00:00:00Z")]) k) :=
  claim_C1_merge_algebra
    [("alice", "2024-01-01T00:00:00Z"), ("bob", "2024-03-01T00:00:00Z")]
    [("bob", "2024-02-05T00:00:00Z"), ("carol", "2024-04-01T00:00:00Z")]
    (by decide) (by decide)

/-- C2: each of the four cursor-following traversals (members, repositories,
branches, branch history — the latter's commit, issue and PR scans)
accumulates exactly the union of all pages' nodes in arrival order, starting
with no cursor, and stops exactly at the first page whose `hasNextPage` is
false: the requests sent are `none` followed by the `endCursor` of each page
before the stopping one, never an extra call with a stale cursor. -/
theorem claim_C2_pagination (mp rp bp : List (Page String)) (ip pp : List (Page ActNode))
    (cp : List (Page CommitAuthor)) (act₁ act₂ act₃ : Dict)
    (hm : stopIdx mp < mp.length) (hr : stopIdx rp < rp.length)
    (hb : stopIdx bp < bp.length) (hi : stopIdx ip < ip.length)
    (hq : stopIdx pp < pp.length) (hc : stopIdx cp < cp.length) :
    get_all_org_members_for_org (mp.map Except.ok) =
      (Except.ok ((mp.take (stopIdx mp + 1)).map Page.nodes).flatten,
       none :: (mp.take (stopIdx mp)).map (fun p => p.pageInfo.endCursor))
    ∧ get_repositories_for_org (rp.map Except.ok) =
      (Except.ok ((rp.take (stopIdx rp + 1)).map Page.nodes).flatten,
       none :: (rp.take (stopIdx rp)).map (fun p => p.pageInfo.endCursor))
    ∧ get_all_branches (bp.map Except.ok) =
      (Except.ok ((bp.take (stopIdx bp + 1)).map Page.nodes).flatten,
       none :: (bp.take (stopIdx bp)).map (fun p => p.pageInfo.endCursor))
    ∧ issuesScan (ip.map Except.ok) none act₁ =
      (Except.ok (((ip.take (stopIdx ip + 1)).map Page.nodes).flatten.foldl actUpdate act₁),
       none :: (ip.take (stopIdx ip)).map (fun p => p.pageInfo.endCursor))
    ∧ prsScan (pp.map Except.ok) none act₂ =
      (Except.ok (((pp.take (stopIdx pp + 1)).map Page.nodes).flatten.foldl actUpdate act₂),
       none :: (pp.take (stopIdx pp)).map (fun p => p.pageInfo.endCursor))
    ∧ commitsGoE (cp.map (fun pg => Except.ok ⟨some ⟨some ⟨pg⟩⟩⟩)) none act₃ =
      (Except.ok (((cp.take (stopIdx cp + 1)).map Page.nodes).flatten.foldl commitUpdate act₃),
       none :: (cp.take (stopIdx cp)).map (fun p => p.pageInfo.endCursor)) :=
  ⟨paginateE_spec mp hm none, paginateE_spec rp hr none, paginateE_spec bp hb none,
   actGoE_spec ip hi none act₁, actGoE_spec pp hq none act₂,
   commitsGoE_spec cp hc none act₃⟩

/-- Witness for C2 at concrete two-page servers for each traversal. -/
theorem claim_C2_pagination_witness :
    get_all_org_members_for_org (wpagesS.map Except.ok) =
      (Except.ok ((wpagesS.take (stopIdx wpagesS + 1)).map Page.nodes).flatten,
       none :: (wpagesS.take (stopIdx wpagesS)).map (fun p => p.pageInfo.endCursor))
    ∧ get_repositories_for_org (wpagesS.map Except.ok) =
      (Except.ok ((wpagesS.take (stopIdx wpagesS + 1)).map Page.nodes).flatten,
       none :: (wpagesS.take (stopIdx wpagesS)).map (fun p => p.pageInfo.endCursor))
    ∧ get_all_branches (wpagesS.map Except.ok) =
      (Except.ok ((wpagesS.take (stopIdx wpagesS + 1)).map Page.nodes).flatten,
       none :: (wpagesS.take (stopIdx wpagesS)).map (fun p => p.pageInfo.endCursor))
    ∧ issuesScan (wpagesA.map Except.ok) none [] =
      (Except.ok (((wpagesA.take (stopIdx wpagesA + 1)).map Page.nodes).flatten.foldl actUpdate []),
       none :: (wpagesA.take (stopIdx wpagesA)).map (fun p => p.pageInfo.endCursor))
    ∧ prsScan (wpagesA.map Except.ok) none [] =
      (Except.ok (((wpagesA.take (stopIdx wpagesA + 1)).map Page.nodes).flatten.foldl actUpdate []),
       none :: (wpagesA.take (stopIdx wpagesA)).map (fun p => p.pageInfo.endCursor))
    ∧ commitsGoE (wpagesC.map (fun pg => Except.ok ⟨some ⟨some ⟨pg⟩⟩⟩)) none [] =
      (Except.ok (((wpagesC.take (stopIdx wpagesC + 1)).map Page.nodes).flatten.foldl commitUpdate []),
       none :: (wpagesC.take (stopIdx wpagesC)).map (fun p => p.pageInfo.endCursor)) :=
  claim_C2_pagination wpagesS wpagesS wpagesS wpagesA wpagesA wpagesC [] [] []
    (by decide) (by decide) (by decide) (by decide) (by decide) (by decide)

/-- C3: the never-active set is exactly the member logins minus the keys of
the overall activity mapping, hence disjoint from those keys: a user
classified never-active does not appear in the activity mapping. -/
theorem claim_C3_never_active_disjoint (members : List String) (overall : Dict)
    (u : String) :
    (u ∈ never_active_users members overall ↔
      u ∈ members ∧ u ∉ overall.map Prod.fst)
    ∧ ¬(u ∈ never_active_users members overall ∧ u ∈ overall.map Prod.fst) := by
  have hiff : u ∈ never_active_users members overall ↔
      u ∈ members ∧ u ∉ overall.map Prod.fst := by
    simp [never_active_users, List.mem_dedup, List.mem_filter]
  exact ⟨hiff, fun h => (hiff.mp h.1).2 h.2⟩

/-- Witness for C3: `b` is never-active for members `a`, `b` with activity
only for `a`, and indeed `b` is not among the activity keys. -/
theorem claim_C3_never_active_disjoint_witness :
    ("b" ∈ never_active_users ["a", "b"] [("a", "2024-01-01T00:00:00Z")] ↔
      "b" ∈ ["a", "b"] ∧ "b" ∉ ([("a", "2024-01-01T00:00:00Z")] : Dict).map Prod.fst)
    ∧ ¬("b" ∈ never_active_users ["a", "b"] [("a", "2024-01-01T00:00:00Z")] ∧
        "b" ∈ ([("a", "2024-01-01T00:00:00Z")] : Dict).map Prod.fst) :=
  claim_C3_never_active_disjoint ["a", "b"] [("a", "2024-01-01T00:00:00Z")] "b"

/-- C4 counterexample: the claim "every transport/GraphQL error raised by the
Query Runner during an organization's processing is caught … no such error
crashes the whole run" is false — in the environment whose member-list query
(line 210, outside every `try`) fails with the transport error `boom`, the
run as a whole terminates with that uncaught exception instead of completing
normally. -/
theorem claim_C4_counterexample :
    mainRun envMembersFail = Except.error "boom" := rfl

/-- C4 amended: every transport/GraphQL error raised while fetching the
repository list, a branch list, or branch activity is caught at the smallest
enclosing loop (org-, repo-, branch-level respectively) and converted into a
skip outcome; the run completes normally provided each organization's
member-list fetch succeeds (and the collected timestamps are well formed) —
an error in the member-list fetch itself is not caught and aborts the run. -/
theorem claim_C4_errors_caught_except_members :
    (∀ env : Env,
      (∀ org ∈ env.orgs, ∃ ms,
        (get_all_org_members_for_org (env.membersServer org)).1 = Except.ok ms) →
      (∀ org ∈ env.orgs, ∀ p ∈ orgOverall env org, (strptime19 p.2).isSome = true) →
      ∃ reports, mainRun env = Except.ok reports)
    ∧ (∀ env org, (∃ e, (get_repositories_for_org (env.reposServer org)).1 = Except.error e) →
        processOrg env org = Except.ok none)
    ∧ (∀ env org acc repo,
        (∃ e, (get_all_branches (env.branchesServer org repo)).1 = Except.error e) →
        stepRepo env org acc repo = acc)
    ∧ (∀ env org repo acc br,
        (∃ e, collect_branch_activity (env.commitsServer org repo br)
            (env.issuesServer org repo) (env.prsServer org repo) env.since_iso =
          Except.error e) →
        stepBranch env org repo acc br = acc) := by
  refine ⟨?_, ?_, ?_, ?_⟩
  · intro env hm hp
    by_cases he : env.orgs.isEmpty
    · exact ⟨[], by simp [mainRun, he]⟩
    · obtain ⟨reports, hrep⟩ := runOrgs_ok env env.orgs
        (fun org ho => processOrg_ok env org (hm org ho) (hp org ho))
      exact ⟨reports, by simp [mainRun, he, hrep]⟩
  · intro env org ⟨e, he⟩
    simp [processOrg, he]
  · intro env org acc repo ⟨e, he⟩
    simp [stepRepo, he]
  · intro env org repo acc br ⟨e, he⟩
    simp [stepBranch, he]

/-- Witness for the amended C4: a run with a failing branch-list query still
completes with a report; a failing repository list, branch list, or branch
collection is skipped at its own loop level. -/
theorem claim_C4_errors_caught_except_members_witness :
    (∃ reports, mainRun envBranchesFail = Except.ok reports)
    ∧ processOrg envReposFail "acme" = Except.ok none
    ∧ stepRepo envBranchesFail "acme" [] "r1" = []
    ∧ stepBranch envCommitsFail "acme" "r1" [] "main" = [] :=
  ⟨claim_C4_errors_caught_except_members.1 envBranchesFail
      (fun org _ => ⟨[], rfl⟩)
      (fun org _ p hp => by
        have h0 : orgOverall envBranchesFail org = [] := rfl
        rw [h0] at hp
        cases hp),
   claim_C4_errors_caught_except_members.2.1 envReposFail "acme" ⟨"repos fail", rfl⟩,
   claim_C4_errors_caught_except_members.2.2.1 envBranchesFail "acme" [] "r1"
     ⟨"branch fail", rfl⟩,
   claim_C4_errors_caught_except_members.2.2.2 envCommitsFail "acme" "r1" [] "main"
     ⟨"commits fail", rfl⟩⟩

/-- C7: when the first commit-history response resolves the branch ref or its
commit target to null, the commit sub-traversal terminates immediately after
that single call with the activity mapping unchanged and no error, and
`collect_branch_activity` yields only the issue/PR contributions. -/
theorem claim_C7_null_ref (r : CommitResp) (rest : List (Except String CommitResp))
    (cserver : String → List (Except String CommitResp))
    (issues prs : List (Except String (Page ActNode))) (s : String)
    (h : r.ref = none ∨ ∃ rf, r.ref = some rf ∧ rf.target = none)
    (hcs : cserver s = Except.ok r :: rest) :
    (∀ c act, commitsGoE (Except.ok r :: rest) c act = (Except.ok act, [c]))
    ∧ collect_branch_activity cserver issues prs s =
        (match (issuesScan issues none []).1 with
         | Except.error e => Except.error e
         | Except.ok a₂ => (prsScan prs none a₂).1) := by
  have h1 : ∀ c act, commitsGoE (Except.ok r :: rest) c act = (Except.ok act, [c]) := by
    intro c act
    rcases h with h | ⟨rf, h, ht⟩
    · simp [commitsGoE, h]
    · simp [commitsGoE, h, ht]
  refine ⟨h1, ?_⟩
  unfold collect_branch_activity
  rw [hcs, h1 none []]

/-- Witness for C7: one null-ref response, nonempty starting mapping, and
empty issue/PR servers. -/
theorem claim_C7_null_ref_witness :
    (commitsGoE [Except.ok ⟨none⟩] (some "cur") [("x", "2024-01-01T00:00:00Z")] =
      (Except.ok [("x", "2024-01-01T00:00:00Z")], [some "cur"]))
    ∧ collect_branch_activity (fun _ => [Except.ok ⟨none⟩]) [] [] "2024-01-01T00:00:00+00:00" =
        (match (issuesScan [] none []).1 with
         | Except.error e => Except.error e
         | Except.ok a₂ => (prsScan [] none a₂).1) :=
  ⟨(claim_C7_null_ref ⟨none⟩ [] (fun _ => [Except.ok ⟨none⟩]) [] []
      "2024-01-01T00:00:00+00:00" (Or.inl rfl) rfl).1 (some "cur")
      [("x", "2024-01-01T00:00:00Z")],
   (claim_C7_null_ref ⟨none⟩ [] (fun _ => [Except.ok ⟨none⟩]) [] []
      "2024-01-01T00:00:00+00:00" (Or.inl rfl) rfl).2⟩

/-- C9: with no organizations configured the invocation returns early: for
every server behaviour the run yields no report at all (so nothing is fetched
and no report file is written). -/
theorem claim_C9_no_orgs_fatal (env : Env) (h : env.orgs = []) :
    mainRun env = Except.ok [] := by
  simp [mainRun, h]

/-- Witness for C9 at the concrete empty-organization environment. -/
theorem claim_C9_no_orgs_fatal_witness : mainRun envNoOrgs = Except.ok [] :=
  claim_C9_no_orgs_fatal envNoOrgs rfl

/-- C5: the report is the header row `Users, Last activity, active`, then one
row per entry of the overall activity map — login, day-month-year date, and
the lowercase string that is `true` exactly when the (parsed) timestamp is ≥
the cutoff — then one row per never-active login with `N/A` and
`never-active`, the never-active logins sorted lexicographically. -/
theorem claim_C5_report_shape (overall : Dict) (members : List String)
    (since : DateTime) (rows : List (List String))
    (hw : writeReport overall (never_active_sorted members overall) since = some rows) :
    rows.head? = some headerRow
    ∧ List.Forall₂ (fun (p : String × String) row => ∃ dt, strptime19 p.2 = some dt ∧
        row = [p.1, fmtDMY dt, pyBool (dtLE since dt)]) overall
        ((rows.drop 1).take overall.length)
    ∧ rows.drop (1 + overall.length) =
        (never_active_sorted members overall).map (fun u => [u, "N/A", "never-active"])
    ∧ List.Sorted (fun a b => strLt b a = false) (never_active_sorted members overall)
    ∧ (never_active_sorted members overall).Perm (never_active_users members overall)
    ∧ rows.length = 1 + overall.length + (never_active_sorted members overall).length := by
  unfold writeReport at hw
  obtain ⟨ars, h1, h2⟩ := Option.map_eq_some'.mp hw
  have hf := rowsFor_forall₂ since overall ars h1
  have hlen : overall.length = ars.length := List.Forall₂.length_eq hf
  subst h2
  refine ⟨rfl, ?_, ?_, ?_, ?_, ?_⟩
  · have hd : (headerRow :: (ars ++ (never_active_sorted members overall).map
        (fun u => [u, "N/A", "never-active"]))).drop 1 = ars ++
        (never_active_sorted members overall).map (fun u => [u, "N/A", "never-active"]) := rfl
    rw [hd, hlen, List.take_left]
    exact hf
  · rw [Nat.add_comm 1 overall.length, List.drop_succ_cons, hlen, List.drop_left]
  · unfold never_active_sorted
    exact List.sorted_insertionSort _ _
  · unfold never_active_sorted
    exact List.perm_insertionSort _ _
  · simp only [List.length_cons, List.length_append, List.length_map, hlen]
    omega

/-- Witness for C5: two activity entries (one inactive, one active relative
to the cutoff 2024-01-01) and two never-active members reported sorted. -/
theorem claim_C5_report_shape_witness :
    ([["Users", "Last activity", "active"],
      ["alice", "25-12-2023", "false"],
      ["bob", "01-02-2024", "true"],
      ["carol", "N/A", "never-active"],
      ["dave", "N/A", "never-active"]] : List (List String)).head? = some headerRow
    ∧ List.Forall₂ (fun (p : String × String) row => ∃ dt, strptime19 p.2 = some dt ∧
        row = [p.1, fmtDMY dt, pyBool (dtLE ⟨2024, 1, 1, 0, 0, 0⟩ dt)])
        [("alice", "2023-12-25T11:30:00Z"), ("bob", "2024-02-01T09:15:00Z")]
        ((([["Users", "Last activity", "active"],
            ["alice", "25-12-2023", "false"],
            ["bob", "01-02-2024", "true"],
            ["carol", "N/A", "never-active"],
            ["dave", "N/A", "never-active"]] : List (List String)).drop 1).take
          ([("alice", "2023-12-25T11:30:00Z"), ("bob", "2024-02-01T09:15:00Z")] : Dict).length)
    ∧ ([["Users", "Last activity", "active"],
        ["alice", "25-12-2023", "false"],
        ["bob", "01-02-2024", "true"],
        ["carol", "N/A", "never-active"],
        ["dave", "N/A", "never-active"]] : List (List String)).drop
          (1 + ([("alice", "2023-12-25T11:30:00Z"), ("bob", "2024-02-01T09:15:00Z")] : Dict).length) =
        (never_active_sorted ["dave", "alice", "carol", "bob"]
          [("alice", "2023-12-25T11:30:00Z"), ("bob", "2024-02-01T09:15:00Z")]).map
          (fun u => [u, "N/A", "never-active"])
    ∧ List.Sorted (fun a b => strLt b a = false)
        (never_active_sorted ["dave", "alice", "carol", "bob"]
          [("alice", "2023-12-25T11:30:00Z"), ("bob", "2024-02-01T09:15:00Z")])
    ∧ (never_active_sorted ["dave", "alice", "carol", "bob"]
        [("alice", "2023-12-25T11:30:00Z"), ("bob", "2024-02-01T09:15:00Z")]).Perm
        (never_active_users ["dave", "alice", "carol", "bob"]
          [("alice", "2023-12-25T11:30:00Z"), ("bob", "2024-02-01T09:15:00Z")])
    ∧ ([["Users", "Last activity", "active"],
        ["alice", "25-12-2023", "false"],
        ["bob", "01-02-2024", "true"],
        ["carol", "N/A", "never-active"],
        ["dave", "N/A", "never-active"]] : List (List String)).length =
        1 + ([("alice", "2023-12-25T11:30:00Z"), ("bob", "2024-02-01T09:15:00Z")] : Dict).length +
          (never_active_sorted ["dave", "alice", "carol", "bob"]
            [("alice", "2023-12-25T11:30:00Z"), ("bob", "2024-02-01T09:15:00Z")]).length :=
  claim_C5_report_shape
    [("alice", "2023-12-25T11:30:00Z"), ("bob", "2024-02-01T09:15:00Z")]
    ["dave", "alice", "carol", "bob"] ⟨2024, 1, 1, 0, 0, 0⟩
    [["Users", "Last activity", "active"],
     ["alice", "25-12-2023", "false"],
     ["bob", "01-02-2024", "true"],
     ["carol", "N/A", "never-active"],
     ["dave", "N/A", "never-active"]]
    (by decide)

set_option maxRecDepth 8000 in
/-- C6: the `since` cutoff appears among the variables of the commit-history
query only — the issue and PR query texts do not mention it and order by
most-recently-updated descending; behaviourally, `collect_branch_activity`
depends on `since_iso` only through the commit server's responses, and the
issue/PR scans follow cursors through every page up to the first
`hasNextPage = false`, for any `since`. -/
theorem claim_C6_since_bounds_only_commits :
    containsSub "$since" q_commits = true
    ∧ containsSub "$since" q_issues = false
    ∧ containsSub "$since" q_prs = false
    ∧ containsSub "orderBy: \x7bfield: UPDATED_AT, direction: DESC\x7d" q_issues = true
    ∧ containsSub "orderBy: \x7bfield: UPDATED_AT, direction: DESC\x7d" q_prs = true
    ∧ (∀ (cserver : String → List (Except String CommitResp))
        (issues prs : List (Except String (Page ActNode))) (s₁ s₂ : String),
        cserver s₁ = cserver s₂ →
        collect_branch_activity cserver issues prs s₁ =
          collect_branch_activity cserver issues prs s₂)
    ∧ (∀ (ip : List (Page ActNode)) (act : Dict), stopIdx ip < ip.length →
        (issuesScan (ip.map Except.ok) none act).2 =
          none :: (ip.take (stopIdx ip)).map (fun p => p.pageInfo.endCursor))
    ∧ (∀ (pp : List (Page ActNode)) (act : Dict), stopIdx pp < pp.length →
        (prsScan (pp.map Except.ok) none act).2 =
          none :: (pp.take (stopIdx pp)).map (fun p => p.pageInfo.endCursor)) := by
  refine ⟨by decide, by decide, by decide, by decide, by decide, ?_, ?_, ?_⟩
  · intro cserver issues prs s₁ s₂ h
    unfold collect_branch_activity
    rw [h]
  · intro ip act h
    show (actGoE (ip.map Except.ok) none act).2 = _
    rw [actGoE_spec ip h none act]
  · intro pp act h
    show (actGoE (pp.map Except.ok) none act).2 = _
    rw [actGoE_spec pp h none act]

/-- Witness for C6: identical commit responses for two different `since`
values give identical results, and the issue/PR scans at a concrete two-page
server send exactly the initial `none` and the first page's cursor. -/
theorem claim_C6_since_bounds_only_commits_witness :
    collect_branch_activity (fun _ => []) [] [] "2024-01-01T00:00:00+00:00" =
      collect_branch_activity (fun _ => []) [] [] "1999-01-01T00:00:00+00:00"
    ∧ (issuesScan (wpagesA.map Except.ok) none []).2 =
        none :: (wpagesA.take (stopIdx wpagesA)).map (fun p => p.pageInfo.endCursor)
    ∧ (prsScan (wpagesA.map Except.ok) none []).2 =
        none :: (wpagesA.take (stopIdx wpagesA)).map (fun p => p.pageInfo.endCursor) :=
  ⟨claim_C6_since_bounds_only_commits.2.2.2.2.2.1 (fun _ => []) [] []
      "2024-01-01T00:00:00+00:00" "1999-01-01T00:00:00+00:00" rfl,
   claim_C6_since_bounds_only_commits.2.2.2.2.2.2.1 wpagesA [] (by decide),
   claim_C6_since_bounds_only_commits.2.2.2.2.2.2.2 wpagesA [] (by decide)⟩

/-- C8: a branch-list failure on one repository leaves the organization's
fold unchanged at that repository — the remaining repositories are processed
exactly as if the failing one were absent — and the organization's report is
still produced. -/
theorem claim_C8_repo_failure_isolated (env : Env) (org : String)
    (pre post : List String) (bad : String) (acc : Dict)
    (hbad : ∃ e, (get_all_branches (env.branchesServer org bad)).1 = Except.error e)
    (hrepos : (get_repositories_for_org (env.reposServer org)).1 =
      Except.ok (pre ++ bad :: post))
    (hm : ∃ ms, (get_all_org_members_for_org (env.membersServer org)).1 = Except.ok ms)
    (hp : ∀ p ∈ orgOverall env org, (strptime19 p.2).isSome = true) :
    (pre ++ bad :: post).foldl (stepRepo env org) acc =
      (pre ++ post).foldl (stepRepo env org) acc
    ∧ ∃ rows, processOrg env org = Except.ok (some (org, rows)) := by
  obtain ⟨e, he⟩ := hbad
  have hstep : ∀ a, stepRepo env org a bad = a := fun a => by simp [stepRepo, he]
  constructor
  · rw [List.foldl_append, List.foldl_append, List.foldl_cons, hstep]
  · obtain ⟨ms, hms⟩ := hm
    have hov : orgOverall env org = (pre ++ bad :: post).foldl (stepRepo env org) [] := by
      simp [orgOverall, hrepos]
    obtain ⟨rows, hrows⟩ :=
      writeReport_of_forall ((pre ++ bad :: post).foldl (stepRepo env org) [])
        (never_active_sorted ms ((pre ++ bad :: post).foldl (stepRepo env org) []))
        env.since (hov ▸ hp)
    refine ⟨rows, ?_⟩
    simp only [List.foldl_append, List.foldl_cons] at hrows
    simp [processOrg, hrepos, hms, hrows]

/-- Witness for C8 at the concrete environment where the middle repository's
branch list fails and the last one contributes `alice`. -/
theorem claim_C8_repo_failure_isolated_witness :
    (["r1"] ++ "bad" :: ["r2"]).foldl (stepRepo envRepoBad "acme") [] =
      (["r1"] ++ ["r2"]).foldl (stepRepo envRepoBad "acme") []
    ∧ ∃ rows, processOrg envRepoBad "acme" = Except.ok (some ("acme", rows)) :=
  claim_C8_repo_failure_isolated envRepoBad "acme" ["r1"] ["r2"] "bad" []
    ⟨"x", rfl⟩ rfl ⟨["alice", "bob"], rfl⟩ (by decide)

/-- C10: the report's active/inactive classification parses only the first 19
characters of the stored ISO-8601 timestamp and interprets them as UTC:
whole rows agree whenever the first 19 characters agree, any timezone-offset
suffix after a 19-character wall-clock prefix is discarded, and the flag is
exactly the comparison of the truncated parse against the cutoff. -/
theorem claim_C10_truncated_utc_parse (u : String) (since : DateTime) :
    (∀ s₁ s₂ : String, s₁.data.take 19 = s₂.data.take 19 →
      activityRow since (u, s₁) = activityRow since (u, s₂))
    ∧ (∀ base off : String, base.data.length = 19 →
        activityRow since (u, base ++ off) = activityRow since (u, base))
    ∧ (∀ (s : String) (dt : DateTime), strptime19 s = some dt →
        activityRow since (u, s) = some [u, fmtDMY dt, pyBool (dtLE since dt)]) := by
  refine ⟨?_, ?_, ?_⟩
  · intro s₁ s₂ h
    simp only [activityRow, strptime19, h]
  · intro base off h
    have hd : (base ++ off).data.take 19 = base.data.take 19 := by
      rw [String.data_append, List.take_left' h, ← h, List.take_length]
    simp only [activityRow, strptime19, hd]
  · intro s dt h
    simp [activityRow, h]

/-- Witness for C10: a timestamp carrying the non-UTC offset `+05:30` is
classified exactly like its bare 19-character wall-clock prefix (and like the
same instant written with a `Z` suffix), via the truncated parse. -/
theorem claim_C10_truncated_utc_parse_witness :
    activityRow ⟨2024, 1, 1, 0, 0, 0⟩ ("alice", "2024-03-05T10:00:00+05:30") =
      activityRow ⟨2024, 1, 1, 0, 0, 0⟩ ("alice", "2024-03-05T10:00:00Z")
    ∧ activityRow ⟨2024, 1, 1, 0, 0, 0⟩ ("alice", "2024-03-05T10:00:00" ++ "+05:30") =
        activityRow ⟨2024, 1, 1, 0, 0, 0⟩ ("alice", "2024-03-05T10:00:00")
    ∧ activityRow ⟨2024, 1, 1, 0, 0, 0⟩ ("alice", "2024-03-05T10:00:00+05:30") =
        some ["alice", fmtDMY ⟨2024, 3, 5, 10, 0, 0⟩,
          pyBool (dtLE ⟨2024, 1, 1, 0, 0, 0⟩ ⟨2024, 3, 5, 10, 0, 0⟩)] :=
  ⟨(claim_C10_truncated_utc_parse "alice" ⟨2024, 1, 1, 0, 0, 0⟩).1
      "2024-03-05T10:00:00+05:30" "2024-03-05T10:00:00Z" (by decide),
   (claim_C10_truncated_utc_parse "alice" ⟨2024, 1, 1, 0, 0, 0⟩).2.1
      "2024-03-05T10:00:00" "+05:30" (by decide),
   (claim_C10_truncated_utc_parse "alice" ⟨2024, 1, 1, 0, 0, 0⟩).2.2
      "2024-03-05T10:00:00+05:30" ⟨2024, 3, 5, 10, 0, 0⟩ (by decide)⟩
